import Mathlib

/-!
Verification of `builder/amazon/common/state.go` (packer).

The Go file implements a generic wait-for-state polling engine:

* `WaitForState` repeatedly invokes a caller-supplied `StateRefreshFunc`
  (`Refresh`), interpreting its `(result, state, err)` triple against a
  `Target` state and a `Pending` allowlist, with a not-found tick budget
  derived from `TimeoutSeconds()/SleepSeconds() + 1`, a cooperative
  cancellation check through `StepState`, and a sleep between polls.
* `SleepSeconds` / `TimeoutSeconds` resolve polling policy from environment
  strings with defaults 2 and 300, falling back to the default only when
  `strconv.Atoi` reports a parse error.
* `ImportImageRefreshFunc` builds a probe that maps certain query errors to
  the not-found outcome.

The embedding below is shallow: the probe is a `Nat`-indexed sequence of
`(result, state, err)` triples (the value returned by the k-th call), the
shared cancellation flag is a `Nat`-indexed boolean (its value when read on
iteration k), the unbounded `for` loop is a fuel-based recursion
(`none` = the loop is still running after `fuel` iterations), and the
returned outcome carries the number of probe calls made and the number of
sleeps performed so that the claims about poll/sleep counts are direct.
Go `error` values are modelled by an inductive (`GoError`): distinct
`errors.New` calls yield distinct error values even when messages collide,
and a probe error is embedded by the `probeErr` constructor carrying the
probe's error value unchanged.
-/

namespace Packer

/-- A single-quote character as a string (ASCII 39), used to render the
Go `fmt.Errorf` messages of `state.go` verbatim. -/
def squote : String := String.singleton (Char.ofNat 39)

/-- The message of `errors.New("couldn't find resource")` in `WaitForState`. -/
def notFoundMessage : String := "couldn" ++ squote ++ "t find resource"

/-- The message of
`fmt.Errorf("unexpected state '%s', wanted target '%s'", currentState, conf.Target)`. -/
def unexpectedStateMessage (state target : String) : String :=
  "unexpected state " ++ squote ++ state ++ squote ++
    ", wanted target " ++ squote ++ target ++ squote

/-- The `error` values `WaitForState` can return: the probe's own error
propagated through the bare `return` (carried unchanged by `probeErr`),
or one of the three errors the driver itself constructs.  `ε` is the type
of the probe's error values. -/
inductive GoError (ε : Type) where
  | probeErr (e : ε)
  | notFound
  | interrupted
  | unexpectedState (state target : String)
deriving DecidableEq, Repr

/-- Message of a driver error, given a renderer for probe errors. -/
def GoError.message (render : ε → String) : GoError ε → String
  | .probeErr e => render e
  | .notFound => notFoundMessage
  | .interrupted => "interrupted"
  | .unexpectedState s t => unexpectedStateMessage s t

/-- Model of `StateChangeConf` from `state.go`.  `Refresh k` is the triple returned
by the k-th probe call (0-based); `StepState` is `none` when the Go field
is nil, otherwise the value of the cancellation flag as observed on
iteration `k` (the flag is shared and may change between iterations). -/
structure StateChangeConf (α ε : Type) where
  Pending : List String
  Refresh : Nat → Option α × String × Option ε
  StepState : Option (Nat → Bool)
  Target : String

/-- Model of `conf.StepState.GetOk(multistep.StateCancelled)` guarded by the
`conf.StepState != nil` check, as read on iteration `k`. -/
def checkCancelled (stepState : Option (Nat → Bool)) (k : Nat) : Bool :=
  match stepState with
  | some cancelled => cancelled k
  | none => false

/-- The `found` flag computed by the `for _, allowed := range conf.Pending`
scan in `WaitForState`. -/
def pendingFound (pending : List String) (currentState : String) : Bool :=
  pending.any (fun allowed => currentState == allowed)

/-- Outcome of one iteration of the `WaitForState` loop body: either a
terminal `return` with the returned `(i, err)` pair, or fall through to
`time.Sleep` and the next iteration with the new `notfoundTick`. -/
inductive StepOut (α ε : Type) where
  | done (res : Option α) (err : Option (GoError ε))
  | again (newTick : Int)
deriving DecidableEq

/-- One iteration of the `WaitForState` loop body (lines 157-196 of
`state.go`), for the k-th probe call with the current `notfoundTick`:

1. `i, currentState, err = conf.Refresh()`; on non-nil `err` the bare
   `return` yields the refreshed `i` together with `err`;
2. on nil `i`, increment the tick; fail with the not-found error once it
   exceeds `maxTicks`, else continue;
3. otherwise the tick resets to 0: return `(i, nil)` if the state equals
   the target, else check cancellation, else the pending allowlist. -/
def waitStep (conf : StateChangeConf α ε) (maxTicks : Int) (k : Nat)
    (notfoundTick : Int) : StepOut α ε :=
  match conf.Refresh k with
  | (i, currentState, err) =>
    match err with
    | some e => StepOut.done i (some (GoError.probeErr e))
    | none =>
      match i with
      | none =>
        if notfoundTick + 1 > maxTicks then
          StepOut.done none (some GoError.notFound)
        else
          StepOut.again (notfoundTick + 1)
      | some _ =>
        if currentState = conf.Target then
          StepOut.done i none
        else if checkCancelled conf.StepState k then
          StepOut.done none (some GoError.interrupted)
        else if pendingFound conf.Pending currentState then
          StepOut.again 0
        else
          StepOut.done none (some (GoError.unexpectedState currentState conf.Target))

/-- The `for` loop of `WaitForState`, with fuel.  `k` is the number of probe
calls already made (= index of the next call), `sleeps` the number of sleeps
performed so far.  A terminal iteration returns
`(total probe calls, total sleeps, returned resource, returned error)`;
`none` means the loop is still running after `fuel` further iterations.
Each non-terminal iteration performs exactly one `time.Sleep` before the
next probe call. -/
def waitForStateAux (conf : StateChangeConf α ε) (maxTicks : Int) :
    Nat → Nat → Int → Nat → Option (Nat × Nat × Option α × Option (GoError ε))
  | _, _, _, 0 => none
  | k, sleeps, notfoundTick, fuel + 1 =>
    match waitStep conf maxTicks k notfoundTick with
    | StepOut.done r e => some (k + 1, sleeps, r, e)
    | StepOut.again t => waitForStateAux conf maxTicks (k + 1) (sleeps + 1) t fuel

/-- One base-10 digit of `strconv.Atoi`s accepted syntax. -/
def digitVal (c : Char) : Option Nat :=
  if '0' ≤ c ∧ c ≤ '9' then some (c.toNat - Char.toNat '0') else none

/-- Accumulate the decimal value of a digit run; `none` on a non-digit. -/
def digitsValAux : Nat → List Char → Option Nat
  | acc, [] => some acc
  | acc, c :: cs =>
    match digitVal c with
    | some d => digitsValAux (acc * 10 + d) cs
    | none => none

def int64Min : Int := -(2 ^ 63)

def int64Max : Int := 2 ^ 63 - 1

/-- Go `strconv.Atoi`: an optional sign followed by a non-empty run of
ASCII digits, valued in the 64-bit `int` range; `none` models a non-nil
parse error (including range errors, on which the caller takes the
error branch). -/
def Atoi (s : String) : Option Int :=
  match s.data with
  | [] => none
  | c :: cs =>
    match (if c = '-' then (true, cs) else if c = '+' then (false, cs)
           else (false, c :: cs) : Bool × List Char) with
    | (_, []) => none
    | (neg, d :: ds) =>
      match digitsValAux 0 (d :: ds) with
      | none => none
      | some n =>
        let v : Int := if neg then -(n : Int) else (n : Int)
        if int64Min ≤ v ∧ v ≤ int64Max then some v else none

/-- Model of `SleepSeconds` from `state.go`: default 2, overridden by
`AWS_POLL_DELAY_SECONDS` (the argument models `os.Getenv`s result, `""`
when unset) whenever `strconv.Atoi` succeeds. -/
def SleepSeconds (pollDelayEnv : String) : Int :=
  if pollDelayEnv = "" then 2
  else
    match Atoi pollDelayEnv with
    | none => 2
    | some n => n

/-- Model of `TimeoutSeconds` from `state.go`: default 300, overridden by
`AWS_TIMEOUT_SECONDS` whenever `strconv.Atoi` succeeds. -/
def TimeoutSeconds (timeoutEnv : String) : Int :=
  if timeoutEnv = "" then 300
  else
    match Atoi timeoutEnv with
    | none => 300
    | some n => n

/-- The quantity `maxTicks := TimeoutSeconds()/sleepSeconds + 1` in `WaitForState`;
Go integer division truncates toward zero, i.e. `Int.tdiv`. -/
def maxTicksOf (timeoutEnv pollDelayEnv : String) : Int :=
  Int.tdiv (TimeoutSeconds timeoutEnv) (SleepSeconds pollDelayEnv) + 1

/-- Model of `WaitForState` from `state.go`, with the two environment strings made
explicit and a fuel bound on the number of loop iterations. -/
def WaitForState (conf : StateChangeConf α ε) (timeoutEnv pollDelayEnv : String)
    (fuel : Nat) : Option (Nat × Nat × Option α × Option (GoError ε)) :=
  waitForStateAux conf (maxTicksOf timeoutEnv pollDelayEnv) 0 0 0 fuel

/-- An element of `resp.ImportImageTasks`; `Status` models the dereferenced
`*i.Status`. -/
structure ImportImageTask where
  Status : String
deriving DecidableEq, Repr

/-- The `DescribeImportImageTasks` response. -/
structure DescribeImportImageTasksOutput where
  ImportImageTasks : List ImportImageTask
deriving DecidableEq, Repr

/-- A Go error value as inspected by `ImportImageRefreshFunc`: whether the
dynamic type assertion to `awserr.Error` succeeds (and then its `Code()`),
and whether the assertion to `net.Error` succeeds (and then `Temporary()`).
A single value may satisfy both interfaces. -/
structure GoErrValue where
  isAwsErr : Bool
  code : String
  isNetErr : Bool
  temporary : Bool
deriving DecidableEq, Repr

/-- Model of `isTransientNetworkError` from `state.go`. -/
def isTransientNetworkError (e : GoErrValue) : Bool := e.isNetErr && e.temporary

/-- Go `strings.HasPrefix(s, pre)`. -/
def hasPrefix (s pre : String) : Bool := pre.data.isPrefixOf s.data

/-- The closure returned by `ImportImageRefreshFunc`, applied to the
`(resp, err)` pair produced by one `DescribeImportImageTasks` call.
On an error whose `awserr` code starts with `"InvalidConversionTaskId"`,
or a transient network error, `resp` is set to nil and the following
`resp == nil` check returns the not-found triple `(nil, "", nil)`; any
other error is returned as `(nil, "", err)`. -/
def ImportImageRefreshFunc
    (query : Option DescribeImportImageTasksOutput × Option GoErrValue) :
    Option ImportImageTask × String × Option GoErrValue :=
  match query with
  | (resp, err) =>
    match err with
    | some e =>
      if e.isAwsErr && hasPrefix e.code "InvalidConversionTaskId" then
        (none, "", none)
      else if isTransientNetworkError e then
        (none, "", none)
      else
        (none, "", some e)
    | none =>
      match resp with
      | none => (none, "", none)
      | some r =>
        match r.ImportImageTasks with
        | [] => (none, "", none)
        | i :: _ => (some i, i.Status, none)

/-! ### Concrete requests used by witnesses and counterexamples -/

/-- A probe that fails with error `"boom"` on its first call, used to
witness C3 (and as C6's counterexample: it also returns a resource). -/
def probeErrConf : StateChangeConf Nat String :=
  { Pending := [], Refresh := fun _ => (some 5, "x", some "boom"),
    StepState := none, Target := "ok" }

/-- A request whose target is also listed in `Pending` and whose
cancellation flag is already set, with the probe reporting the target
state immediately. -/
def targetPriorityConf : StateChangeConf Nat String :=
  { Pending := ["ok", "p"], Refresh := fun _ => (some 7, "ok", none),
    StepState := some (fun _ => true), Target := "ok" }

/-- A probe reporting state `"weird"` with target `"ok"` and pending
`["p"]`. -/
def unexpectedConf : StateChangeConf Nat String :=
  { Pending := ["p"], Refresh := fun _ => (some 5, "weird", none),
    StepState := none, Target := "ok" }

/-- A probe pending (`"p"`) for three calls, then at the target (`"ok"`)
with resource 7 on the fourth. -/
def pendingRunConf : StateChangeConf Nat String :=
  { Pending := ["p"],
    Refresh := fun k => if k < 3 then (some 1, "p", none) else (some 7, "ok", none),
    StepState := none, Target := "ok" }

/-- A probe that never finds the resource. -/
def neverFoundConf : StateChangeConf Nat String :=
  { Pending := [], Refresh := fun _ => (none, "", none),
    StepState := none, Target := "ready" }

/-- A probe stuck in a pending state, with the shared cancellation flag
becoming set from iteration 2 on. -/
def cancelRunConf : StateChangeConf Nat String :=
  { Pending := ["p"], Refresh := fun _ => (some 5, "p", none),
    StepState := some (fun k => decide (2 ≤ k)), Target := "ok" }

/-- A probe that follows the documented contract: when it reports an
error, the resource is nil. -/
def contractErrConf : StateChangeConf Nat String :=
  { Pending := [], Refresh := fun _ => (none, "", some "boom"),
    StepState := none, Target := "ok" }

/-- Iteration `i` saw the not-found probe outcome (nil resource, nil
error), i.e. took the `notfoundTick` branch of `WaitForState`. -/
def notFoundProbe (conf : StateChangeConf α ε) (i : Nat) : Prop :=
  (conf.Refresh i).1 = none ∧ (conf.Refresh i).2.2 = none

/-- A query error that is a temporary `net.Error` and not an `awserr`. -/
def transientErr : GoErrValue :=
  { isAwsErr := false, code := "", isNetErr := true, temporary := true }

/-- A query error that is an `awserr` whose code starts with
`"InvalidConversionTaskId"`. -/
def invalidTaskErr : GoErrValue :=
  { isAwsErr := true, code := "InvalidConversionTaskId.Malformed",
    isNetErr := false, temporary := false }

/-- A query error that is neither: a non-temporary `net.Error`. -/
def otherErr : GoErrValue :=
  { isAwsErr := false, code := "", isNetErr := true, temporary := false }

/-- An import-task query that keeps failing with a transient network
error. -/
def importQueries : Nat → Option DescribeImportImageTasksOutput × Option GoErrValue :=
  fun _ => (none, some transientErr)

/-- A wait request whose probe is `ImportImageRefreshFunc` over
`importQueries`. -/
def importWaitConf : StateChangeConf ImportImageTask GoErrValue :=
  { Pending := ["active"], Refresh := fun k => ImportImageRefreshFunc (importQueries k),
    StepState := none, Target := "completed" }

/-! ### Unfolding and single-iteration lemmas -/

theorem waitForStateAux_zero (conf : StateChangeConf α ε) (m : Int) (k sleeps : Nat)
    (t : Int) : waitForStateAux conf m k sleeps t 0 = none := rfl

theorem waitForStateAux_succ (conf : StateChangeConf α ε) (m : Int) (k sleeps : Nat)
    (t : Int) (fuel : Nat) :
    waitForStateAux conf m k sleeps t (fuel + 1) =
      match waitStep conf m k t with
      | StepOut.done r e => some (k + 1, sleeps, r, e)
      | StepOut.again t2 => waitForStateAux conf m (k + 1) (sleeps + 1) t2 fuel := rfl

theorem waitForStateAux_done (conf : StateChangeConf α ε) (m : Int) (k sleeps : Nat)
    (t : Int) (fuel : Nat) (r : Option α) (e : Option (GoError ε))
    (h : waitStep conf m k t = StepOut.done r e) :
    waitForStateAux conf m k sleeps t (fuel + 1) = some (k + 1, sleeps, r, e) := by
  rw [waitForStateAux_succ, h]

theorem waitForStateAux_again (conf : StateChangeConf α ε) (m : Int) (k sleeps : Nat)
    (t t2 : Int) (fuel : Nat) (h : waitStep conf m k t = StepOut.again t2) :
    waitForStateAux conf m k sleeps t (fuel + 1) =
      waitForStateAux conf m (k + 1) (sleeps + 1) t2 fuel := by
  rw [waitForStateAux_succ, h]

theorem waitStep_probeErr (conf : StateChangeConf α ε) (m : Int) (k : Nat) (t : Int)
    (i : Option α) (s : String) (e : ε) (h : conf.Refresh k = (i, s, some e)) :
    waitStep conf m k t = StepOut.done i (some (GoError.probeErr e)) := by
  simp [waitStep, h]

theorem waitStep_notFoundTick (conf : StateChangeConf α ε) (m : Int) (k : Nat) (t : Int)
    (s : String) (h : conf.Refresh k = (none, s, none)) :
    waitStep conf m k t =
      if t + 1 > m then StepOut.done none (some GoError.notFound)
      else StepOut.again (t + 1) := by
  simp [waitStep, h]

theorem waitStep_target (conf : StateChangeConf α ε) (m : Int) (k : Nat) (t : Int)
    (o : α) (h : conf.Refresh k = (some o, conf.Target, none)) :
    waitStep conf m k t = StepOut.done (some o) none := by
  simp [waitStep, h]

theorem waitStep_interrupted (conf : StateChangeConf α ε) (m : Int) (k : Nat) (t : Int)
    (o : α) (s : String) (h : conf.Refresh k = (some o, s, none))
    (hs : s ≠ conf.Target) (hc : checkCancelled conf.StepState k = true) :
    waitStep conf m k t = StepOut.done none (some GoError.interrupted) := by
  simp [waitStep, h, hs, hc]

theorem waitStep_pending (conf : StateChangeConf α ε) (m : Int) (k : Nat) (t : Int)
    (o : α) (s : String) (h : conf.Refresh k = (some o, s, none))
    (hs : s ≠ conf.Target) (hc : checkCancelled conf.StepState k = false)
    (hp : pendingFound conf.Pending s = true) :
    waitStep conf m k t = StepOut.again 0 := by
  simp [waitStep, h, hs, hc, hp]

theorem waitStep_unexpected (conf : StateChangeConf α ε) (m : Int) (k : Nat) (t : Int)
    (o : α) (s : String) (h : conf.Refresh k = (some o, s, none))
    (hs : s ≠ conf.Target) (hc : checkCancelled conf.StepState k = false)
    (hp : pendingFound conf.Pending s = false) :
    waitStep conf m k t =
      StepOut.done none (some (GoError.unexpectedState s conf.Target)) := by
  simp [waitStep, h, hs, hc, hp]

/-! ### Claims C3, C9, C4: single-iteration terminations -/

/-- C3. On any iteration whose probe call returns a non-nil error,
`WaitForState` terminates on that same iteration: the total number of probe
calls is `k + 1` (no further probe call), the sleep count is unchanged (no
sleep before returning), the returned resource is exactly what the probe
returned, and the returned error is the probe's error value `e` itself,
embedded unchanged (not wrapped) by the `probeErr` injection. -/
theorem claim_C3 (conf : StateChangeConf α ε) (m : Int) (k sleeps : Nat) (t : Int)
    (fuel : Nat) (i : Option α) (s : String) (e : ε)
    (h : conf.Refresh k = (i, s, some e)) :
    waitForStateAux conf m k sleeps t (fuel + 1) =
      some (k + 1, sleeps, i, some (GoError.probeErr e)) := by
  rw [waitForStateAux_succ, waitStep_probeErr conf m k t i s e h]

theorem claim_C3_witness :
    probeErrConf.Refresh 0 = (some 5, "x", some "boom") ∧
    waitForStateAux probeErrConf 151 0 0 0 (2 + 1) =
      some (1, 0, some 5, some (GoError.probeErr "boom")) :=
  ⟨rfl, claim_C3 probeErrConf 151 0 0 0 2 (some 5) "x" "boom" rfl⟩

/-- C9. If the probe returns a non-nil resource whose state equals the
target, `WaitForState` returns that resource successfully on that very
iteration, whatever the `Pending` list (even if it contains the target) and
whatever the cancellation flag says: the target-equality check precedes both
the cancellation check and the pending-membership scan. -/
theorem claim_C9 (conf : StateChangeConf α ε) (m : Int) (k sleeps : Nat) (t : Int)
    (fuel : Nat) (o : α) (h : conf.Refresh k = (some o, conf.Target, none)) :
    waitForStateAux conf m k sleeps t (fuel + 1) = some (k + 1, sleeps, some o, none) := by
  rw [waitForStateAux_succ, waitStep_target conf m k t o h]

theorem claim_C9_witness :
    pendingFound targetPriorityConf.Pending targetPriorityConf.Target = true ∧
    checkCancelled targetPriorityConf.StepState 0 = true ∧
    waitForStateAux targetPriorityConf 151 0 0 0 (0 + 1) = some (1, 0, some 7, none) :=
  ⟨by decide, rfl, claim_C9 targetPriorityConf 151 0 0 0 0 7 rfl⟩

/-- C4. If the probe returns a non-nil resource in a state that is
neither the target nor in `Pending`, and cancellation is not signaled,
`WaitForState` terminates on that iteration with the unexpected-state
error; its message contains both the offending state and the target as
substrings. -/
theorem claim_C4 (conf : StateChangeConf α ε) (m : Int) (k sleeps : Nat) (t : Int)
    (fuel : Nat) (o : α) (s : String) (render : ε → String)
    (h : conf.Refresh k = (some o, s, none)) (hs : s ≠ conf.Target)
    (hc : checkCancelled conf.StepState k = false)
    (hp : pendingFound conf.Pending s = false) :
    waitForStateAux conf m k sleeps t (fuel + 1) =
      some (k + 1, sleeps, none, some (GoError.unexpectedState s conf.Target)) ∧
    s.data <:+: ((GoError.unexpectedState (ε := ε) s conf.Target).message render).data ∧
    conf.Target.data <:+:
      ((GoError.unexpectedState (ε := ε) s conf.Target).message render).data := by
  refine ⟨?_, ?_, ?_⟩
  · rw [waitForStateAux_succ, waitStep_unexpected conf m k t o s h hs hc hp]
  · refine ⟨("unexpected state " ++ squote).data,
      (squote ++ ", wanted target " ++ squote ++ conf.Target ++ squote).data, ?_⟩
    simp [GoError.message, unexpectedStateMessage, String.data_append]
  · refine ⟨("unexpected state " ++ squote ++ s ++ squote ++ ", wanted target " ++
      squote).data, squote.data, ?_⟩
    simp [GoError.message, unexpectedStateMessage, String.data_append]

theorem claim_C4_witness :
    waitForStateAux unexpectedConf 151 0 0 0 (0 + 1) =
      some (1, 0, none, some (GoError.unexpectedState "weird" "ok")) ∧
    "weird".data <:+:
      ((GoError.unexpectedState (ε := String) "weird" "ok").message id).data ∧
    "ok".data <:+:
      ((GoError.unexpectedState (ε := String) "weird" "ok").message id).data :=
  claim_C4 unexpectedConf 151 0 0 0 0 5 "weird" id rfl (by decide) rfl (by decide)

/-! ### Claim C2: pending run followed by the target -/

/-- If iterations `k, ..., k + K - 1` all see a found resource in a
non-target pending state with no cancellation, and iteration `k + K` sees
the target, the loop starting at call index `k` returns the target's
resource after `K + 1` further calls and `K` further sleeps, whatever the
incoming tick. -/
theorem pendingRunAux (conf : StateChangeConf α ε) (m : Int) (obj : α) :
    ∀ (K k sleeps : Nat) (t : Int) (fuel : Nat),
    (∀ j, k ≤ j → j < k + K → ∃ o s, conf.Refresh j = (some o, s, none) ∧
      s ≠ conf.Target ∧ pendingFound conf.Pending s = true) →
    (∀ j, k ≤ j → j < k + K → checkCancelled conf.StepState j = false) →
    conf.Refresh (k + K) = (some obj, conf.Target, none) →
    K + 1 ≤ fuel →
    waitForStateAux conf m k sleeps t fuel =
      some (k + K + 1, sleeps + K, some obj, none) := by
  intro K
  induction K with
  | zero =>
    intro k sleeps t fuel _ _ htarget hfuel
    obtain ⟨f, rfl⟩ : ∃ f, fuel = f + 1 := ⟨fuel - 1, by omega⟩
    rw [waitForStateAux_done conf m k sleeps t f (some obj) none
      (waitStep_target conf m k t obj htarget)]
    simp
  | succ K ih =>
    intro k sleeps t fuel hpend hcancel htarget hfuel
    obtain ⟨f, rfl⟩ : ∃ f, fuel = f + 1 := ⟨fuel - 1, by omega⟩
    obtain ⟨o, s, hr, hs, hp⟩ := hpend k (le_refl k) (by omega)
    rw [waitForStateAux_again conf m k sleeps t 0 f
      (waitStep_pending conf m k t o s hr hs (hcancel k (le_refl k) (by omega)) hp)]
    have := ih (k + 1) (sleeps + 1) 0 f
      (fun j hj1 hj2 => hpend j (by omega) (by omega))
      (fun j hj1 hj2 => hcancel j (by omega) (by omega))
      (by rw [show k + 1 + K = k + (K + 1) by omega]; exact htarget)
      (by omega)
    have h1 : k + 1 + K + 1 = k + (K + 1) + 1 := by omega
    have h2 : sleeps + 1 + K = sleeps + (K + 1) := by omega
    rw [this, h1, h2]

/-- C2. If the probe reports a found resource in a non-target pending
state (with no cancellation signal) on its first `K` calls and the target
state with resource `obj` on call `K + 1`, then `WaitForState` returns
`(obj, nil)` after exactly `K + 1` probe calls and exactly `K` sleeps.
With `K = 0` this is the immediate-success case: one poll, zero sleeps. -/
theorem claim_C2 (conf : StateChangeConf α ε) (timeoutEnv pollDelayEnv : String)
    (K fuel : Nat) (obj : α)
    (hpend : ∀ j, j < K → ∃ o s, conf.Refresh j = (some o, s, none) ∧
      s ≠ conf.Target ∧ pendingFound conf.Pending s = true)
    (hcancel : ∀ j, j < K → checkCancelled conf.StepState j = false)
    (htarget : conf.Refresh K = (some obj, conf.Target, none))
    (hfuel : K + 1 ≤ fuel) :
    WaitForState conf timeoutEnv pollDelayEnv fuel = some (K + 1, K, some obj, none) := by
  have := pendingRunAux conf (maxTicksOf timeoutEnv pollDelayEnv) obj K 0 0 0 fuel
    (fun j hj1 hj2 => hpend j (by omega))
    (fun j hj1 hj2 => hcancel j (by omega))
    (by simpa using htarget) hfuel
  simpa [WaitForState] using this

theorem claim_C2_witness :
    pendingRunConf.Refresh 3 = (some 7, "ok", none) ∧
    WaitForState pendingRunConf "" "" 10 = some (4, 3, some 7, none) ∧
    WaitForState targetPriorityConf "" "" 1 = some (1, 0, some 7, none) := by
  refine ⟨rfl, ?_, ?_⟩
  · refine claim_C2 pendingRunConf "" "" 3 10 7 ?_ ?_ rfl (by omega)
    · intro j hj
      exact ⟨1, "p", by simp [pendingRunConf, hj], by decide, by decide⟩
    · intro j hj
      rfl
  · exact claim_C2 targetPriorityConf "" "" 0 1 7 (fun j hj => absurd hj (by omega))
      (fun j hj => absurd hj (by omega)) rfl (by omega)

/-! ### Claim C1: the all-not-found run -/

/-- If every probe call reports the resource as absent, the loop starting
with tick `c ≤ m` fails with the not-found error after exactly
`(m - c) + 1` further probe calls, and on no earlier iteration. -/
theorem notFoundRunAux (conf : StateChangeConf α ε) (m : Int)
    (hnf : ∀ j, conf.Refresh j = (none, "", none)) :
    ∀ (fuel k sleeps : Nat) (c : Int), c ≤ m → (m - c).toNat + 1 ≤ fuel →
    waitForStateAux conf m k sleeps c fuel =
      some (k + (m - c).toNat + 1, sleeps + (m - c).toNat, none, some GoError.notFound) := by
  intro fuel
  induction fuel with
  | zero => intro k sleeps c hc hfuel; exact absurd hfuel (by omega)
  | succ f ih =>
    intro k sleeps c hc hfuel
    rw [waitForStateAux_succ, waitStep_notFoundTick conf m k c "" (hnf k)]
    by_cases hstop : c + 1 > m
    · have hm : (m - c).toNat = 0 := by omega
      simp [hstop, hm]
    · simp only [hstop, if_neg hstop, ite_false]
      have := ih (k + 1) (sleeps + 1) (c + 1) (by omega) (by omega)
      have h1 : k + 1 + (m - (c + 1)).toNat + 1 = k + (m - c).toNat + 1 := by omega
      have h2 : sleeps + 1 + (m - (c + 1)).toNat = sleeps + (m - c).toNat := by omega
      rw [this, h1, h2]

/-- For an all-not-found probe the loop is still running while the
budget that remains exceeds the fuel. -/
theorem notFoundRunningAux (conf : StateChangeConf α ε) (m : Int)
    (hnf : ∀ j, conf.Refresh j = (none, "", none)) :
    ∀ (fuel k sleeps : Nat) (c : Int), c ≤ m → fuel ≤ (m - c).toNat →
    waitForStateAux conf m k sleeps c fuel = none := by
  intro fuel
  induction fuel with
  | zero => intro k sleeps c hc hfuel; rfl
  | succ f ih =>
    intro k sleeps c hc hfuel
    rw [waitForStateAux_succ, waitStep_notFoundTick conf m k c "" (hnf k)]
    have hstop : ¬ c + 1 > m := by omega
    rw [if_neg hstop]
    exact ih (k + 1) (sleeps + 1) (c + 1) (by omega) (by omega)

/-- C1. For a probe that reports the not-found triple `(nil, "", nil)`
on every call, `WaitForState` fails with the `"couldn't find resource"`
error after exactly `maxTicks + 1` probe calls — i.e. exactly when the
consecutive not-found count first exceeds
`maxTicks = TimeoutSeconds()/SleepSeconds() + 1` — and on no earlier
iteration: within the first `maxTicks` iterations the loop is still
running. -/
theorem claim_C1 (conf : StateChangeConf α ε) (timeoutEnv pollDelayEnv : String)
    (hnf : ∀ j, conf.Refresh j = (none, "", none))
    (hm : 0 ≤ maxTicksOf timeoutEnv pollDelayEnv) :
    (∀ fuel, (maxTicksOf timeoutEnv pollDelayEnv).toNat + 1 ≤ fuel →
      WaitForState conf timeoutEnv pollDelayEnv fuel =
        some ((maxTicksOf timeoutEnv pollDelayEnv).toNat + 1,
          (maxTicksOf timeoutEnv pollDelayEnv).toNat, none, some GoError.notFound)) ∧
    (∀ fuel, fuel ≤ (maxTicksOf timeoutEnv pollDelayEnv).toNat →
      WaitForState conf timeoutEnv pollDelayEnv fuel = none) := by
  constructor
  · intro fuel hfuel
    have := notFoundRunAux conf (maxTicksOf timeoutEnv pollDelayEnv) hnf fuel 0 0 0 hm
      (by omega)
    simpa [WaitForState] using this
  · intro fuel hfuel
    exact notFoundRunningAux conf (maxTicksOf timeoutEnv pollDelayEnv) hnf fuel 0 0 0
      hm (by omega)

theorem claim_C1_witness :
    0 ≤ maxTicksOf "" "" ∧ maxTicksOf "" "" = 151 ∧
    WaitForState neverFoundConf "" "" 152 =
      some (152, 151, none, some GoError.notFound) ∧
    WaitForState neverFoundConf "" "" 151 = none := by
  refine ⟨by decide, by decide, ?_, ?_⟩
  · have := (claim_C1 neverFoundConf "" "" (fun _ => rfl) (by decide)).1 152 (by decide)
    simpa using this
  · exact (claim_C1 neverFoundConf "" "" (fun _ => rfl) (by decide)).2 151 (by decide)

/-! ### Claim C5: when cancellation is observed -/

/-- If a run ends with the interrupted error, its last iteration saw a
found resource in a non-target state and the cancellation flag set. -/
theorem interruptedOnlyAux (conf : StateChangeConf α ε) (m : Int) :
    ∀ (fuel k sleeps : Nat) (c : Int) (n sl : Nat) (r : Option α),
    waitForStateAux conf m k sleeps c fuel = some (n, sl, r, some GoError.interrupted) →
    ∃ o s, conf.Refresh (n - 1) = (some o, s, none) ∧ s ≠ conf.Target ∧
      checkCancelled conf.StepState (n - 1) = true := by
  intro fuel
  induction fuel with
  | zero => intro k sleeps c n sl r h; exact Option.noConfusion h
  | succ f ih =>
    intro k sleeps c n sl r h
    rcases hr : conf.Refresh k with ⟨i, s, err⟩
    cases err with
    | some e =>
      rw [waitForStateAux_done conf m k sleeps c f i (some (GoError.probeErr e))
        (waitStep_probeErr conf m k c i s e hr)] at h
      simp at h
    | none =>
      cases i with
      | none =>
        rw [waitForStateAux_succ, waitStep_notFoundTick conf m k c s hr] at h
        by_cases hstop : c + 1 > m
        · rw [if_pos hstop] at h
          simp at h
        · rw [if_neg hstop] at h
          exact ih (k + 1) (sleeps + 1) (c + 1) n sl r h
      | some o =>
        by_cases hs : s = conf.Target
        · subst hs
          rw [waitForStateAux_done conf m k sleeps c f (some o) none
            (waitStep_target conf m k c o hr)] at h
          simp at h
        · by_cases hc : checkCancelled conf.StepState k = true
          · rw [waitForStateAux_done conf m k sleeps c f none (some GoError.interrupted)
              (waitStep_interrupted conf m k c o s hr hs hc)] at h
            have h2 := Option.some.inj h
            have hn : k + 1 = n := congrArg Prod.fst h2
            have hk : n - 1 = k := by omega
            exact ⟨o, s, by rw [hk]; exact hr, hs, by rw [hk]; exact hc⟩
          · have hc2 : checkCancelled conf.StepState k = false := by
              revert hc; cases checkCancelled conf.StepState k <;> simp
            by_cases hp : pendingFound conf.Pending s = true
            · rw [waitForStateAux_again conf m k sleeps c 0 f
                (waitStep_pending conf m k c o s hr hs hc2 hp)] at h
              exact ih (k + 1) (sleeps + 1) 0 n sl r h
            · have hp2 : pendingFound conf.Pending s = false := by
                revert hp; cases pendingFound conf.Pending s <;> simp
              rw [waitForStateAux_done conf m k sleeps c f none
                (some (GoError.unexpectedState s conf.Target))
                (waitStep_unexpected conf m k c o s hr hs hc2 hp2)] at h
              simp at h

/-- Two runs differing only in the cancellation flag history agree,
provided the histories agree on every iteration whose probe reported a
found resource in a non-target state: the flag is never read anywhere
else (in particular not on not-found iterations). -/
theorem cancelAgnosticAux (conf : StateChangeConf α ε) (m : Int)
    (ss2 : Option (Nat → Bool))
    (hagree : ∀ (k : Nat) (o : α) (s : String), conf.Refresh k = (some o, s, none) →
      s ≠ conf.Target → checkCancelled conf.StepState k = checkCancelled ss2 k) :
    ∀ (fuel k sleeps : Nat) (c : Int),
    waitForStateAux conf m k sleeps c fuel =
      waitForStateAux { conf with StepState := ss2 } m k sleeps c fuel := by
  intro fuel
  induction fuel with
  | zero => intro k sleeps c; rfl
  | succ f ih =>
    intro k sleeps c
    have hstep : waitStep ({ conf with StepState := ss2 } : StateChangeConf α ε) m k c =
        waitStep conf m k c := by
      rcases hr : conf.Refresh k with ⟨i, s, err⟩
      have hr2 : ({ conf with StepState := ss2 } : StateChangeConf α ε).Refresh k
          = (i, s, err) := hr
      cases err with
      | some e =>
        rw [waitStep_probeErr _ m k c i s e hr2, waitStep_probeErr conf m k c i s e hr]
      | none =>
        cases i with
        | none =>
          rw [waitStep_notFoundTick _ m k c s hr2, waitStep_notFoundTick conf m k c s hr]
        | some o =>
          by_cases hs : s = conf.Target
          · subst hs
            rw [waitStep_target _ m k c o hr2, waitStep_target conf m k c o hr]
          · by_cases hcp : checkCancelled conf.StepState k = true
            · have hcp2 : checkCancelled ss2 k = true := by
                rw [← hagree k o s hr hs]; exact hcp
              rw [waitStep_interrupted _ m k c o s hr2 hs hcp2,
                waitStep_interrupted conf m k c o s hr hs hcp]
            · have hcp2 : checkCancelled conf.StepState k = false := by
                revert hcp; cases checkCancelled conf.StepState k <;> simp
              have hcp3 : checkCancelled ss2 k = false := by
                rw [← hagree k o s hr hs]; exact hcp2
              by_cases hp : pendingFound conf.Pending s = true
              · rw [waitStep_pending _ m k c o s hr2 hs hcp3 hp,
                  waitStep_pending conf m k c o s hr hs hcp2 hp]
              · have hp2 : pendingFound conf.Pending s = false := by
                  revert hp; cases pendingFound conf.Pending s <;> simp
                rw [waitStep_unexpected _ m k c o s hr2 hs hcp3 hp2,
                  waitStep_unexpected conf m k c o s hr hs hcp2 hp2]
    rw [waitForStateAux_succ, waitForStateAux_succ, hstep]
    cases hws : waitStep conf m k c with
    | done r e => rfl
    | again t2 => exact ih (k + 1) (sleeps + 1) t2

/-- C5. Conjunction of the three temporal facts about cancellation:
(1) the interrupted error is only ever returned on an iteration whose
probe reported a found resource in a state different from the target,
with the flag set when read on that iteration; (2) on such an iteration
the flag takes priority over pending-state validation (the run is
interrupted whatever `Pending` contains); (3) the outcome is insensitive
to the flag's values on all other iterations — in particular the flag is
never observed while the probe reports the resource as absent. -/
theorem claim_C5 (conf : StateChangeConf α ε) (m : Int) :
    (∀ (fuel k sleeps : Nat) (c : Int) (n sl : Nat) (r : Option α),
      waitForStateAux conf m k sleeps c fuel = some (n, sl, r, some GoError.interrupted) →
      ∃ o s, conf.Refresh (n - 1) = (some o, s, none) ∧ s ≠ conf.Target ∧
        checkCancelled conf.StepState (n - 1) = true) ∧
    (∀ (k sleeps : Nat) (c : Int) (fuel : Nat) (o : α) (s : String),
      conf.Refresh k = (some o, s, none) → s ≠ conf.Target →
      checkCancelled conf.StepState k = true →
      waitForStateAux conf m k sleeps c (fuel + 1) =
        some (k + 1, sleeps, none, some GoError.interrupted)) ∧
    (∀ ss2 : Option (Nat → Bool),
      (∀ (k : Nat) (o : α) (s : String), conf.Refresh k = (some o, s, none) →
        s ≠ conf.Target → checkCancelled conf.StepState k = checkCancelled ss2 k) →
      ∀ (fuel k sleeps : Nat) (c : Int),
      waitForStateAux conf m k sleeps c fuel =
        waitForStateAux { conf with StepState := ss2 } m k sleeps c fuel) := by
  refine ⟨interruptedOnlyAux conf m, ?_, cancelAgnosticAux conf m⟩
  intro k sleeps c fuel o s hr hs hc
  exact waitForStateAux_done conf m k sleeps c fuel none (some GoError.interrupted)
    (waitStep_interrupted conf m k c o s hr hs hc)

theorem claim_C5_witness :
    waitForStateAux cancelRunConf 151 0 0 0 9 =
      some (3, 2, none, some GoError.interrupted) ∧
    (∃ o s, cancelRunConf.Refresh (3 - 1) = (some o, s, none) ∧
      s ≠ cancelRunConf.Target ∧
      checkCancelled cancelRunConf.StepState (3 - 1) = true) ∧
    waitForStateAux cancelRunConf 151 2 2 0 (5 + 1) =
      some (3, 2, none, some GoError.interrupted) ∧
    waitForStateAux neverFoundConf 151 0 0 0 7 =
      waitForStateAux { neverFoundConf with StepState := some (fun _ => true) }
        151 0 0 0 7 := by
  have hrun : waitForStateAux cancelRunConf 151 0 0 0 9 =
      some (3, 2, none, some GoError.interrupted) := rfl
  refine ⟨hrun, (claim_C5 cancelRunConf 151).1 9 0 0 0 3 2 none hrun,
    (claim_C5 cancelRunConf 151).2.1 2 2 0 5 5 "p" rfl (by decide) rfl,
    (claim_C5 neverFoundConf 151).2.2 (some (fun _ => true)) ?_ 7 0 0 0⟩
  intro k o s hfound hs
  exact absurd hfound (by simp [neverFoundConf])

/-! ### Claim C6: nil resource on failure (corrected) -/

/-- C6 counterexample: the claim as stated is false: the probe-error `return` propagates the
probe's resource alongside the error, so a probe returning both a
resource and an error makes `WaitForState` return a non-nil resource with
a non-nil error. -/
theorem claim_C6_counterexample :
    WaitForState probeErrConf "" "" 1 =
      some (1, 0, some 5, some (GoError.probeErr "boom")) ∧
    (some 5 : Option Nat) ≠ none :=
  ⟨rfl, by decide⟩

/-- Under the contract, any error outcome has a nil resource. -/
theorem nilOnErrorAux (conf : StateChangeConf α ε) (m : Int)
    (hcontract : ∀ j, (conf.Refresh j).2.2 ≠ none → (conf.Refresh j).1 = none) :
    ∀ (fuel k sleeps : Nat) (c : Int) (n sl : Nat) (r : Option α) (e : GoError ε),
    waitForStateAux conf m k sleeps c fuel = some (n, sl, r, some e) → r = none := by
  intro fuel
  induction fuel with
  | zero => intro k sleeps c n sl r e h; exact Option.noConfusion h
  | succ f ih =>
    intro k sleeps c n sl r e h
    rcases hr : conf.Refresh k with ⟨i, s, err⟩
    cases err with
    | some e2 =>
      rw [waitForStateAux_done conf m k sleeps c f i (some (GoError.probeErr e2))
        (waitStep_probeErr conf m k c i s e2 hr)] at h
      have hi : i = none := by
        have hcon := hcontract k
        rw [hr] at hcon
        exact hcon (by simp)
      have h2 := Option.some.inj h
      have hir : i = r := congrArg (fun x => x.2.2.1) h2
      rw [← hir, hi]
    | none =>
      cases i with
      | none =>
        rw [waitForStateAux_succ, waitStep_notFoundTick conf m k c s hr] at h
        by_cases hstop : c + 1 > m
        · rw [if_pos hstop] at h
          have h2 := Option.some.inj h
          have hir : (none : Option α) = r := congrArg (fun x => x.2.2.1) h2
          rw [← hir]
        · rw [if_neg hstop] at h
          exact ih (k + 1) (sleeps + 1) (c + 1) n sl r e h
      | some o =>
        by_cases hs : s = conf.Target
        · subst hs
          rw [waitForStateAux_done conf m k sleeps c f (some o) none
            (waitStep_target conf m k c o hr)] at h
          simp at h
        · by_cases hc : checkCancelled conf.StepState k = true
          · rw [waitForStateAux_done conf m k sleeps c f none (some GoError.interrupted)
              (waitStep_interrupted conf m k c o s hr hs hc)] at h
            have h2 := Option.some.inj h
            have hir : (none : Option α) = r := congrArg (fun x => x.2.2.1) h2
            rw [← hir]
          · have hc2 : checkCancelled conf.StepState k = false := by
              revert hc; cases checkCancelled conf.StepState k <;> simp
            by_cases hp : pendingFound conf.Pending s = true
            · rw [waitForStateAux_again conf m k sleeps c 0 f
                (waitStep_pending conf m k c o s hr hs hc2 hp)] at h
              exact ih (k + 1) (sleeps + 1) 0 n sl r e h
            · have hp2 : pendingFound conf.Pending s = false := by
                revert hp; cases pendingFound conf.Pending s <;> simp
              rw [waitForStateAux_done conf m k sleeps c f none
                (some (GoError.unexpectedState s conf.Target))
                (waitStep_unexpected conf m k c o s hr hs hc2 hp2)] at h
              have h2 := Option.some.inj h
              have hir : (none : Option α) = r := congrArg (fun x => x.2.2.1) h2
              rw [← hir]

/-- C6, amended. For every request whose probe follows the
documented contract (nil resource whenever it returns a non-nil error),
every failing outcome of `WaitForState` carries a nil resource.  Without
the contract hypothesis the claim fails: on the probe-error path the
resource returned by the probe is propagated as-is (see the
counterexample). -/
theorem claim_C6 (conf : StateChangeConf α ε) (timeoutEnv pollDelayEnv : String)
    (hcontract : ∀ j, (conf.Refresh j).2.2 ≠ none → (conf.Refresh j).1 = none)
    (fuel n sl : Nat) (r : Option α) (e : GoError ε)
    (h : WaitForState conf timeoutEnv pollDelayEnv fuel = some (n, sl, r, some e)) :
    r = none :=
  nilOnErrorAux conf (maxTicksOf timeoutEnv pollDelayEnv) hcontract fuel 0 0 0 n sl r e h

theorem claim_C6_witness :
    WaitForState contractErrConf "" "" 1 =
      some (1, 0, none, some (GoError.probeErr "boom")) ∧
    (none : Option Nat) = none :=
  ⟨rfl, claim_C6 contractErrConf "" "" (fun _ _ => rfl) 1 1 0 none
    (GoError.probeErr "boom") rfl⟩

/-! ### Claim C7: policy resolution (corrected) -/

/-- C7 counterexample: the claim as stated is false: `strconv.Atoi` parses `"0"` and `"-5"`
successfully, so the override is used rather than the default. -/
theorem claim_C7_counterexample :
    SleepSeconds "0" = 0 ∧ SleepSeconds "-5" = -5 ∧
    ¬ SleepSeconds "0" = 2 ∧ ¬ SleepSeconds "-5" = 2 := by
  decide

/-- C7, amended. `SleepSeconds` returns 2 when the override is empty
or fails to parse as an integer, and the parsed value `n` — whatever its
sign — when parsing succeeds (so `"0"` yields 0 and `"-5"` yields −5, not
the default); `TimeoutSeconds` behaves likewise with default 300; with
the defaults, `maxTicks = 300/2 + 1 = 151`. -/
theorem claim_C7 :
    SleepSeconds "" = 2 ∧ SleepSeconds "10" = 10 ∧ SleepSeconds "abc" = 2 ∧
    SleepSeconds "0" = 0 ∧ SleepSeconds "-5" = -5 ∧
    TimeoutSeconds "" = 300 ∧ TimeoutSeconds "abc" = 300 ∧
    TimeoutSeconds "600" = 600 ∧ maxTicksOf "" "" = 151 := by
  decide

/-! ### Claim C8: the not-found counter and the failure streak -/

/-- A run that fails with the not-found error either saw only not-found
probes from its start (with the incoming tick making up the budget), or
contains a found iteration followed by a trailing all-not-found streak
longer than `maxTicks`. -/
theorem notFoundStreakAux (conf : StateChangeConf α ε) (m : Int) :
    ∀ (fuel k sleeps : Nat) (c : Int) (n sl : Nat) (r : Option α),
    waitForStateAux conf m k sleeps c fuel = some (n, sl, r, some GoError.notFound) →
    k < n ∧
    ((∀ i, k ≤ i → i < n → notFoundProbe conf i) ∧ c + ((n : Int) - (k : Int)) > m ∨
     ∃ s0, k ≤ s0 ∧ s0 + 1 < n ∧ (∀ i, s0 < i → i < n → notFoundProbe conf i) ∧
       (n : Int) - 1 - (s0 : Int) > m) := by
  intro fuel
  induction fuel with
  | zero => intro k sleeps c n sl r h; exact Option.noConfusion h
  | succ f ih =>
    intro k sleeps c n sl r h
    rcases hr : conf.Refresh k with ⟨i, s, err⟩
    cases err with
    | some e =>
      rw [waitForStateAux_done conf m k sleeps c f i (some (GoError.probeErr e))
        (waitStep_probeErr conf m k c i s e hr)] at h
      simp at h
    | none =>
      cases i with
      | none =>
        rw [waitForStateAux_succ, waitStep_notFoundTick conf m k c s hr] at h
        by_cases hstop : c + 1 > m
        · rw [if_pos hstop] at h
          have h2 := Option.some.inj h
          have hn : k + 1 = n := congrArg Prod.fst h2
          refine ⟨by omega, Or.inl ⟨?_, by omega⟩⟩
          intro i hi1 hi2
          have hik : i = k := by omega
          subst hik
          exact ⟨by rw [hr], by rw [hr]⟩
        · rw [if_neg hstop] at h
          obtain ⟨hkn, hcase⟩ := ih (k + 1) (sleeps + 1) (c + 1) n sl r h
          refine ⟨by omega, ?_⟩
          rcases hcase with ⟨hall, hbound⟩ | ⟨s0, hs0k, hs0n, htail, hbound⟩
          · refine Or.inl ⟨?_, by omega⟩
            intro i hi1 hi2
            rcases Nat.eq_or_lt_of_le hi1 with hik | hik
            · rw [← hik]
              exact ⟨by rw [hr], by rw [hr]⟩
            · exact hall i (by omega) hi2
          · exact Or.inr ⟨s0, by omega, hs0n, htail, hbound⟩
      | some o =>
        by_cases hs : s = conf.Target
        · subst hs
          rw [waitForStateAux_done conf m k sleeps c f (some o) none
            (waitStep_target conf m k c o hr)] at h
          simp at h
        · by_cases hc : checkCancelled conf.StepState k = true
          · rw [waitForStateAux_done conf m k sleeps c f none (some GoError.interrupted)
              (waitStep_interrupted conf m k c o s hr hs hc)] at h
            simp at h
          · have hc2 : checkCancelled conf.StepState k = false := by
              revert hc; cases checkCancelled conf.StepState k <;> simp
            by_cases hp : pendingFound conf.Pending s = true
            · rw [waitForStateAux_again conf m k sleeps c 0 f
                (waitStep_pending conf m k c o s hr hs hc2 hp)] at h
              obtain ⟨hkn, hcase⟩ := ih (k + 1) (sleeps + 1) 0 n sl r h
              refine ⟨by omega, Or.inr ?_⟩
              rcases hcase with ⟨hall, hbound⟩ | ⟨s0, hs0k, hs0n, htail, hbound⟩
              · exact ⟨k, le_refl k, by omega,
                  fun i hi1 hi2 => hall i (by omega) hi2, by omega⟩
              · exact ⟨s0, by omega, hs0n, htail, hbound⟩
            · have hp2 : pendingFound conf.Pending s = false := by
                revert hp; cases pendingFound conf.Pending s <;> simp
              rw [waitForStateAux_done conf m k sleeps c f none
                (some (GoError.unexpectedState s conf.Target))
                (waitStep_unexpected conf m k c o s hr hs hc2 hp2)] at h
              simp at h

/-- C8. (1) On an iteration whose probe reports a found resource (in
a pending state, with no cancellation), the loop continues with the
not-found counter reset to zero, whatever its incoming value; hence
(2) a `"couldn't find resource"` failure can only arise from a streak of
consecutive not-found probe results longer than `maxTicks`, never from
not-found results separated by a found resource. -/
theorem claim_C8 (conf : StateChangeConf α ε) (timeoutEnv pollDelayEnv : String) :
    (∀ (k sleeps : Nat) (t : Int) (fuel : Nat) (o : α) (s : String),
      conf.Refresh k = (some o, s, none) → s ≠ conf.Target →
      checkCancelled conf.StepState k = false → pendingFound conf.Pending s = true →
      waitForStateAux conf (maxTicksOf timeoutEnv pollDelayEnv) k sleeps t (fuel + 1) =
        waitForStateAux conf (maxTicksOf timeoutEnv pollDelayEnv) (k + 1) (sleeps + 1)
          0 fuel) ∧
    (0 ≤ maxTicksOf timeoutEnv pollDelayEnv →
      ∀ (fuel n sl : Nat) (r : Option α),
      WaitForState conf timeoutEnv pollDelayEnv fuel =
        some (n, sl, r, some GoError.notFound) →
      ∃ st, st < n ∧ (maxTicksOf timeoutEnv pollDelayEnv).toNat < n - st ∧
        ∀ i, st ≤ i → i < n → notFoundProbe conf i) := by
  constructor
  · intro k sleeps t fuel o s hr hs hc hp
    exact waitForStateAux_again conf (maxTicksOf timeoutEnv pollDelayEnv) k sleeps t 0 fuel
      (waitStep_pending conf (maxTicksOf timeoutEnv pollDelayEnv) k t o s hr hs hc hp)
  · intro hm fuel n sl r h
    obtain ⟨hkn, hcase⟩ := notFoundStreakAux conf (maxTicksOf timeoutEnv pollDelayEnv)
      fuel 0 0 0 n sl r h
    rcases hcase with ⟨hall, hbound⟩ | ⟨s0, hs0k, hs0n, htail, hbound⟩
    · exact ⟨0, hkn, by omega, fun i hi1 hi2 => hall i (by omega) hi2⟩
    · exact ⟨s0 + 1, by omega, by omega, fun i hi1 hi2 => htail i (by omega) hi2⟩

theorem claim_C8_witness :
    0 ≤ maxTicksOf "" "100" ∧
    WaitForState neverFoundConf "" "100" 5 = some (5, 4, none, some GoError.notFound) ∧
    waitForStateAux pendingRunConf (maxTicksOf "" "") 0 0 7 1 =
      waitForStateAux pendingRunConf (maxTicksOf "" "") 1 1 0 0 ∧
    ∃ st, st < 5 ∧ (maxTicksOf "" "100").toNat < 5 - st ∧
      ∀ i, st ≤ i → i < 5 → notFoundProbe neverFoundConf i := by
  have hrun : WaitForState neverFoundConf "" "100" 5 =
      some (5, 4, none, some GoError.notFound) := rfl
  exact ⟨by decide, hrun,
    (claim_C8 pendingRunConf "" "").1 0 0 7 0 1 "p" rfl (by decide) rfl rfl,
    (claim_C8 neverFoundConf "" "100").2 (by decide) 5 5 4 none hrun⟩

/-! ### Claim C10: error classification in `ImportImageRefreshFunc` -/

/-- An `awserr` with the `"InvalidConversionTaskId"` code prefix, or a
transient network error, is mapped to the not-found triple. -/
theorem importErrMapsNotFound (resp : Option DescribeImportImageTasksOutput)
    (e : GoErrValue)
    (h : isTransientNetworkError e = true ∨
      (e.isAwsErr = true ∧ hasPrefix e.code "InvalidConversionTaskId" = true)) :
    ImportImageRefreshFunc (resp, some e) = (none, "", none) := by
  by_cases hcond : (e.isAwsErr && hasPrefix e.code "InvalidConversionTaskId")
      = true
  · simp [ImportImageRefreshFunc, hcond]
  · have htrans : isTransientNetworkError e = true := by
      rcases h with h | ⟨h1, h2⟩
      · exact h
      · exact absurd (by rw [h1, h2]; rfl) hcond
    simp [ImportImageRefreshFunc, hcond, htrans]

/-- Any other query error is returned as the probe's error outcome. -/
theorem importErrPropagates (resp : Option DescribeImportImageTasksOutput)
    (e : GoErrValue) (htrans : isTransientNetworkError e = false)
    (hcond : (e.isAwsErr && hasPrefix e.code "InvalidConversionTaskId")
      = false) :
    ImportImageRefreshFunc (resp, some e) = (none, "", some e) := by
  simp [ImportImageRefreshFunc, hcond, htrans]

/-- C10. The probe built by `ImportImageRefreshFunc` maps a query
error that is a transient network error or an `awserr` whose code starts
with `"InvalidConversionTaskId"` to the not-found outcome `(nil, "", nil)`
(whatever the response was); every other query error is returned as the
probe's error outcome; and a request polling through this probe
consumes not-found budget in `WaitForState` on such failures (its loop
iteration takes the `notfoundTick` branch) instead of terminating. -/
theorem claim_C10 :
    (∀ (resp : Option DescribeImportImageTasksOutput) (e : GoErrValue),
      isTransientNetworkError e = true ∨
        (e.isAwsErr = true ∧
          hasPrefix e.code "InvalidConversionTaskId" = true) →
      ImportImageRefreshFunc (resp, some e) = (none, "", none)) ∧
    (∀ (resp : Option DescribeImportImageTasksOutput) (e : GoErrValue),
      isTransientNetworkError e = false →
      (e.isAwsErr && hasPrefix e.code "InvalidConversionTaskId") = false →
      ImportImageRefreshFunc (resp, some e) = (none, "", some e)) ∧
    (∀ (conf : StateChangeConf ImportImageTask GoErrValue)
       (queries : Nat → Option DescribeImportImageTasksOutput × Option GoErrValue)
       (m : Int) (k : Nat) (t : Int)
       (resp : Option DescribeImportImageTasksOutput) (e : GoErrValue),
      (∀ j, conf.Refresh j = ImportImageRefreshFunc (queries j)) →
      queries k = (resp, some e) →
      (isTransientNetworkError e = true ∨
        (e.isAwsErr = true ∧
          hasPrefix e.code "InvalidConversionTaskId" = true)) →
      waitStep conf m k t =
        if t + 1 > m then StepOut.done none (some GoError.notFound)
        else StepOut.again (t + 1)) := by
  refine ⟨importErrMapsNotFound, importErrPropagates, ?_⟩
  intro conf queries m k t resp e hRef hq h
  have h1 : conf.Refresh k = (none, "", none) := by
    rw [hRef k, hq]
    exact importErrMapsNotFound resp e h
  exact waitStep_notFoundTick conf m k t "" h1

theorem claim_C10_witness :
    ImportImageRefreshFunc (none, some transientErr) = (none, "", none) ∧
    ImportImageRefreshFunc (none, some invalidTaskErr) = (none, "", none) ∧
    ImportImageRefreshFunc (none, some otherErr) = (none, "", some otherErr) ∧
    waitStep importWaitConf 4 0 0 = StepOut.again 1 := by
  refine ⟨claim_C10.1 none transientErr (Or.inl rfl),
    claim_C10.1 none invalidTaskErr (Or.inr ⟨rfl, by decide⟩),
    claim_C10.2.1 none otherErr rfl rfl, ?_⟩
  have hws := claim_C10.2.2 importWaitConf importQueries 4 0 0 none transientErr
    (fun _ => rfl) rfl (Or.inl rfl)
  simpa using hws

end Packer
